import Mathlib

/-!
# Verification of the SmartSPIM → CCF transform pipeline notebooks

Shallow embedding of the coordinate-frame / transform-composition core of the
`get-your-brain-together` repository (notebooks `ApplyTransformToPointSet.ipynb`
and `LocalFetchFromS3.ipynb`), with theorems settling the specification's
claims about it.  Physical coordinates are embedded as rationals (`ℚ`); the
concrete numeric inputs appearing below are exactly the decimal literals of the
source, so rational arithmetic is exact where the source's double arithmetic
is exact.
-/

set_option autoImplicit false

namespace BrainTogether

/-- A 3-component physical coordinate, as handled by `itk.PointSet[itk.F, 3]`
points in `ApplyTransformToPointSet.ipynb`.  Components are embedded as
rationals. -/
structure Vec3 where
  x : ℚ
  y : ℚ
  z : ℚ
deriving DecidableEq, Repr

/-- The all-zero coordinate, used as the `getD` default for point lists. -/
def Vec3.zero : Vec3 := ⟨0, 0, 0⟩

/-- Componentwise addition of coordinates. -/
def Vec3.add (a b : Vec3) : Vec3 := ⟨a.x + b.x, a.y + b.y, a.z + b.z⟩

/-- Componentwise subtraction of coordinates. -/
def Vec3.sub (a b : Vec3) : Vec3 := ⟨a.x - b.x, a.y - b.y, a.z - b.z⟩

/-- A dense 3×3 matrix of rationals, row major, as printed for the initial
transform's `Matrix:` block in `ApplyTransformToPointSet.ipynb`. -/
structure Mat3 where
  a00 : ℚ
  a01 : ℚ
  a02 : ℚ
  a10 : ℚ
  a11 : ℚ
  a12 : ℚ
  a20 : ℚ
  a21 : ℚ
  a22 : ℚ
deriving DecidableEq, Repr

/-- Matrix–vector product for `Mat3`. -/
def Mat3.mulVec (M : Mat3) (v : Vec3) : Vec3 :=
  ⟨M.a00 * v.x + M.a01 * v.y + M.a02 * v.z,
   M.a10 * v.x + M.a11 * v.y + M.a12 * v.z,
   M.a20 * v.x + M.a21 * v.y + M.a22 * v.z⟩

/-- The 3×3 identity matrix. -/
def Mat3.id3 : Mat3 := ⟨1, 0, 0, 0, 1, 0, 0, 0, 1⟩

/-- The stage-0 linear transform read by
`itk.transformread(ITK_TRANSFORM_FILENAME)[0]` in
`ApplyTransformToPointSet.ipynb`: an `itk::VersorRigid3DTransform` holding a
rotation matrix, a rotation center and a translation. -/
structure LinearTransform where
  matrix : Mat3
  center : Vec3
  translation : Vec3
deriving DecidableEq, Repr

/-- ITK `MatrixOffsetTransformBase::TransformPoint`, the operation applied one
point at a time by `init_transform.TransformPoint(point)` in the `init_points`
loop of `ApplyTransformToPointSet.ipynb`:
`y = M ⬝ (x − center) + center + translation`. -/
def LinearTransform.transformPoint (T : LinearTransform) (p : Vec3) : Vec3 :=
  Vec3.add (Vec3.add (T.matrix.mulVec (Vec3.sub p T.center)) T.center) T.translation

/-- The concrete initial transform of the demo run, as printed by
`print(init_transform)` in `ApplyTransformToPointSet.ipynb`: identity rotation
matrix, center `(6.6384, 9.2016, 4.176)`, translation
`(-12.3259, -2.6141, -8.1635)`. -/
def initTransform : LinearTransform :=
  { matrix := Mat3.id3
    center := ⟨6.6384, 9.2016, 4.176⟩
    translation := ⟨-12.3259, -2.6141, -8.1635⟩ }

/-- C2: applying the stage-0 linear transform — identity rotation with
translation `(−12.3259, −2.6141, −8.1635)` — to the input point
`(8.46357, 9.5616, 5.61258)` yields `(−3.86233, 6.9475, −2.55092)`, each
coordinate within absolute tolerance `1e-3` (here the rational arithmetic is
exact, so the error is `0`). -/
theorem stage0_transform_first_point :
    |(initTransform.transformPoint ⟨8.46357, 9.5616, 5.61258⟩).x - (-3.86233)| ≤ 1 / 1000 ∧
    |(initTransform.transformPoint ⟨8.46357, 9.5616, 5.61258⟩).y - 6.9475| ≤ 1 / 1000 ∧
    |(initTransform.transformPoint ⟨8.46357, 9.5616, 5.61258⟩).z - (-2.55092)| ≤ 1 / 1000 := by
  simp only [initTransform, LinearTransform.transformPoint, Mat3.mulVec, Mat3.id3,
    Vec3.add, Vec3.sub]
  norm_num

/-!
## Engine result-table extraction (C1)

The display cell of `ApplyTransformToPointSet.ipynb` iterates over the engine's
result lines and slices each line's whitespace-separated token array at fixed
positions: `output_point[11:18]` and `output_point[27:35]`.  A result line is
embedded as its list of whitespace tokens (as produced by the numpy text
loader on the engine's `outputpoints.txt`), so surrounding whitespace is
already absorbed; the slices are Python list slices.
-/

/-- The code's extraction of the first group,
`output_point[11:18]` in `ApplyTransformToPointSet.ipynb`: tokens at fixed
positions 11–17 of the result line. -/
def inputSlice (line : List String) : List String := (line.drop 11).take 7

/-- The code's extraction of the second group,
`output_point[27:35]` in `ApplyTransformToPointSet.ipynb`: tokens at fixed
positions 27–34 of the result line. -/
def outputSlice (line : List String) : List String := (line.drop 27).take 8

/-- Reads a bracketed coordinate triple `= [ a b c ]` from the tokens that
follow a label, per the engine result format `Label = [ a b c ]`. -/
def bracketTriple : List String → Option (List String)
  | "=" :: "[" :: a :: b :: c :: "]" :: _ => some [a, b, c]
  | _ => none

/-- Label-based extraction, as the spec describes the parsing step
(`parse_result_table`, spec section 4.4): locate the labeled substring in the
line and read the bracketed coordinate triple that follows it, independent of
position.  Written from the spec's words, for comparison with the fixed-offset
slicing the source actually performs. -/
def labelTriple (label : String) : List String → Option (List String)
  | [] => none
  | t :: rest => if t = label then bracketTriple rest else labelTriple label rest

/-- A result line is well formed when it contains an `InputPoint = [ ... ]`
labeled group and an `OutputPoint = [ ... ]` labeled group. -/
def WellFormedLine (line : List String) : Prop :=
  (labelTriple "InputPoint" line).isSome = true ∧
  (labelTriple "OutputPoint" line).isSome = true

/-- A well-formed engine result line that is shorter than the engine's full
canonical layout: it has both labeled groups but lacks the `InputIndex` and
`OutputIndexFixed` groups. -/
def shortResultLine : List String :=
  ["Point", "0", ";",
   "InputPoint", "=", "[", "1", "2", "3", "]", ";",
   "OutputPoint", "=", "[", "4", "5", "6", "]"]

/-- C1 counterexample: `shortResultLine` is well formed and its `InputPoint`
triple is `1 2 3`, yet the code's fixed-position slice `[11:18]` does not even
contain the token `1`: extraction depends on the line's fixed layout, not on
locating the labels. -/
theorem fixed_slice_misses_labeled_triple :
    WellFormedLine shortResultLine ∧
    labelTriple "InputPoint" shortResultLine = some ["1", "2", "3"] ∧
    "1" ∉ inputSlice shortResultLine := by
  refine ⟨⟨?_, ?_⟩, ?_, ?_⟩ <;> decide

/-- The engine's canonical result line layout, one line per point:
`Point id ; InputIndex = [ i j k ] ; InputPoint = [ x y z ] ;
OutputIndexFixed = [ a b c ] ; OutputPoint = [ u v w ] ;
Deformation = [ dx dy dz ]`, tokenized on whitespace. -/
def canonicalResultLine (id i j k x y z a b c u v w dx dy dz : String) : List String :=
  ["Point", id, ";",
   "InputIndex", "=", "[", i, j, k, "]", ";",
   "InputPoint", "=", "[", x, y, z, "]", ";",
   "OutputIndexFixed", "=", "[", a, b, c, "]", ";",
   "OutputPoint", "=", "[", u, v, w, "]", ";",
   "Deformation", "=", "[", dx, dy, dz, "]"]

/-- C1 amended: the result-table step extracts token spans at the fixed
positions `[11:18]` and `[27:35]`; on a line in the engine's canonical layout
(and only by virtue of that fixed layout) those spans are exactly the
`InputPoint = [ x y z ]` labeled group and the `OutputPoint = [ u v w ]`
labeled group with its trailing separator, so they contain the two coordinate
triples; the extraction depends on the fixed token offsets, not on locating the
labels. -/
theorem fixed_slice_on_canonical_layout
    (id i j k x y z a b c u v w dx dy dz : String) :
    inputSlice (canonicalResultLine id i j k x y z a b c u v w dx dy dz) =
      ["InputPoint", "=", "[", x, y, z, "]"] ∧
    outputSlice (canonicalResultLine id i j k x y z a b c u v w dx dy dz) =
      ["OutputPoint", "=", "[", u, v, w, "]", ";"] :=
  ⟨rfl, rfl⟩

/-!
## List helpers

Shared lemmas about the append-accumulating fold pattern that embeds the
notebooks' `InsertElement` / sequential-write loops.
-/

/-- Folding a list while appending one image per element builds the mapped
list after the accumulator. -/
theorem foldl_append_singleton {α β : Type} (f : α → β) (l : List α) (acc : List β) :
    l.foldl (fun acc2 a => acc2 ++ [f a]) acc = acc ++ l.map f := by
  induction l generalizing acc with
  | nil => simp
  | cons a t ih => simp [ih]

/-- Reading every index of a list back with `getD` reproduces the list. -/
theorem map_range_getD {α : Type} (l : List α) (d : α) :
    (List.range l.length).map (fun i => l.getD i d) = l := by
  induction l with
  | nil => simp
  | cons a t ih =>
    simp only [List.length_cons, List.range_succ_eq_map, List.map_cons, List.getD_cons_zero,
      List.map_map]
    exact congrArg (a :: ·) ih

/-- `getD` through `map`, at an in-range index. -/
theorem getD_map_of_lt {α β : Type} (f : α → β) (l : List α) (i : ℕ) (h : i < l.length)
    (d : β) (d0 : α) : (l.map f).getD i d = f (l.getD i d0) := by
  induction l generalizing i with
  | nil => simp at h
  | cons a t ih =>
    cases i with
    | zero => simp
    | succ n =>
      simp only [List.map_cons, List.getD_cons_succ]
      exact ih n (by simpa using h)

/-!
## Point-set loading from markup (C9)

`ApplyTransformToPointSet.ipynb` loads 3D Slicer markup JSON and iterates
`points_markup["markups"][0]["controlPoints"]`, inserting each `position` at
successive indices of an `itk.PointSet`.
-/

/-- One control point of the markup document, with its `position` field. -/
structure ControlPoint where
  position : Vec3

/-- One markup group, with its list of `controlPoints`. -/
structure Markup where
  controlPoints : List ControlPoint

/-- The markup document: a structured document with a list of markup groups
(`"markups"`). -/
structure MarkupDocument where
  markups : List Markup

/-- The point-loading step of `ApplyTransformToPointSet.ipynb`:
`for point_id, point in enumerate(points_markup["markups"][0]["controlPoints"]):
input_points.GetPoints().InsertElement(point_id, point["position"])`.
Indexing `markups[0]` on an empty list raises `IndexError` in Python, embedded
as `none`; otherwise each position of the first group is inserted at the next
index, in order. -/
def load_points (doc : MarkupDocument) : Option (List Vec3) :=
  match doc.markups with
  | [] => none
  | g :: _ => some (g.controlPoints.foldl (fun acc p => acc ++ [p.position]) [])

/-- C9: when the markup document has at least one markup group, point loading
reads exactly the control points of group 0, in order, and the result does not
depend on the remaining groups: their control points are silently ignored. -/
theorem load_points_reads_first_group_only (g : Markup) (rest : List Markup) :
    load_points ⟨g :: rest⟩ = some (g.controlPoints.map ControlPoint.position) := by
  simp [load_points, foldl_append_singleton]

/-!
## Engine point-file serialization (C3)

The writer cell of `ApplyTransformToPointSet.ipynb`:
`f.write("point\n")`, `f.write(f"{n}\n")`, then one
`f.write(f"{p[0]} {p[1]} {p[2]}\n")` per point.  Every write emits exactly one
newline-terminated line, so the produced file is embedded as its list of
lines, one per write.  `fmt` stands for Python's float formatting of one
coordinate. -/

/-- The point-table writer of `ApplyTransformToPointSet.ipynb`: header line
`point`, the decimal point count, then one line of three space-separated
coordinates per point, in PointSet order. -/
def write_point_table (fmt : ℚ → String) (ps : List Vec3) : List String :=
  "point" :: toString ps.length ::
    ps.map (fun p => fmt p.x ++ " " ++ fmt p.y ++ " " ++ fmt p.z)

/-- C3: the written point file has `N + 2` lines; line 0 is the literal
`point`, line 1 is the decimal count, and line `i + 2` is the three
space-separated coordinates of point `i`, in PointSet order. -/
theorem write_point_table_format (fmt : ℚ → String) (ps : List Vec3) :
    (write_point_table fmt ps).length = ps.length + 2 ∧
    (write_point_table fmt ps).getD 0 "" = "point" ∧
    (write_point_table fmt ps).getD 1 "" = toString ps.length ∧
    ∀ i, i < ps.length →
      (write_point_table fmt ps).getD (i + 2) "" =
        fmt ((ps.getD i Vec3.zero).x) ++ " " ++ fmt ((ps.getD i Vec3.zero).y) ++ " " ++
          fmt ((ps.getD i Vec3.zero).z) := by
  refine ⟨by simp [write_point_table], rfl, rfl, ?_⟩
  intro i hi
  show (ps.map _).getD i "" = _
  rw [getD_map_of_lt _ ps i hi "" Vec3.zero]

/-- A concrete coordinate formatter for evaluating the serialization claims:
prints the numerator and denominator of the rational coordinate. -/
def exFmt : ℚ → String := fun q => toString q.num ++ "/" ++ toString q.den

/-- A concrete one-point PointSet for evaluating the point-pipeline claims. -/
def exPoints : List Vec3 := [⟨1, 2, 3⟩]

/-- C3 witness: the format theorem evaluated on the concrete one-point set. -/
theorem write_point_table_format_witness :
    0 < exPoints.length ∧
    (write_point_table exFmt exPoints).getD (0 + 2) "" =
      exFmt ((exPoints.getD 0 Vec3.zero).x) ++ " " ++ exFmt ((exPoints.getD 0 Vec3.zero).y) ++
        " " ++ exFmt ((exPoints.getD 0 Vec3.zero).z) :=
  ⟨by decide, (write_point_table_format exFmt exPoints).2.2.2 0 (by decide)⟩

/-!
## Ordered application of the transform stack (C4)

Stage 0 is applied by the `init_points` loop of
`ApplyTransformToPointSet.ipynb`: for each `idx` in `range(N)`, the image of
input point `idx` is inserted at index `idx` of the new PointSet.  The
non-linear stages are delegated to the engine through one batched call whose
protocol writes the points in order (`write_point_table`) and returns one
result line per input line in order, so each stage acts as the same ordered
per-point application. -/

/-- One transform stage applied by the source's loop pattern:
`for idx in range(input.GetNumberOfPoints()): out.InsertElement(idx, T(input.GetPoint(idx)))`. -/
def applyStageLoop (T : Vec3 → Vec3) (input : List Vec3) : List Vec3 :=
  (List.range input.length).foldl (fun acc idx => acc ++ [T (input.getD idx Vec3.zero)]) []

/-- The stage loop maps the transform over the points in order. -/
theorem applyStageLoop_eq_map (T : Vec3 → Vec3) (input : List Vec3) :
    applyStageLoop T input = input.map T := by
  unfold applyStageLoop
  rw [foldl_append_singleton (fun idx => T (input.getD idx Vec3.zero)) _ []]
  show ((List.range input.length).map fun i => T (input.getD i Vec3.zero)) = input.map T
  rw [← map_range_getD input Vec3.zero, List.map_map, map_range_getD input Vec3.zero]
  rfl

/-- Applying the whole transform stack: each stage, in stack order, is applied
to the PointSet produced by the previous stage via the ordered loop/batch
pattern. -/
def apply_to_points (stages : List (Vec3 → Vec3)) (ps : List Vec3) : List Vec3 :=
  stages.foldl (fun acc T => applyStageLoop T acc) ps

/-- C4: the transform stack preserves the PointSet's length, and output point
`i` is the image of input point `i` under the stages composed in stack order —
no point is dropped, duplicated or reordered. -/
theorem apply_to_points_preserves_order (S : List (Vec3 → Vec3)) (ps : List Vec3) :
    (apply_to_points S ps).length = ps.length ∧
    ∀ i, i < ps.length →
      (apply_to_points S ps).getD i Vec3.zero =
        S.foldl (fun q T => T q) (ps.getD i Vec3.zero) := by
  induction S generalizing ps with
  | nil => exact ⟨rfl, fun i _ => rfl⟩
  | cons T S ih =>
    have hstep : apply_to_points (T :: S) ps = apply_to_points S (ps.map T) := by
      show apply_to_points S (applyStageLoop T ps) = _
      rw [applyStageLoop_eq_map]
    constructor
    · rw [hstep, (ih (ps.map T)).1, List.length_map]
    · intro i hi
      have hi2 : i < (ps.map T).length := by simpa using hi
      rw [hstep, (ih (ps.map T)).2 i hi2, getD_map_of_lt T ps i hi Vec3.zero Vec3.zero]
      rfl

/-- A concrete transform stage for evaluating the stack claims. -/
def exStage : Vec3 → Vec3 := fun v => Vec3.add v ⟨1, 0, 0⟩

/-- C4 witness: the order-preservation theorem evaluated on a concrete
one-stage stack and one-point set. -/
theorem apply_to_points_preserves_order_witness :
    0 < exPoints.length ∧
    (apply_to_points [exStage] exPoints).getD 0 Vec3.zero =
      [exStage].foldl (fun q T => T q) (exPoints.getD 0 Vec3.zero) :=
  ⟨by decide, (apply_to_points_preserves_order [exStage] exPoints).2 0 (by decide)⟩

/-!
## Building the non-linear parameter chain (C5)

`ApplyTransformToPointSet.ipynb` loops over `ELASTIX_TRANSFORM_FILENAMES`
(`elastix-transform0.txt`, `elastix-transform1.txt`, `elastix-transform2.txt`,
in index order) doing `param.ReadParameterFile(fn)` then
`toplevel_param.AddParameterMap(param.GetParameterMap(0))`.  Per elastix
`ParameterObject` semantics, `ReadParameterFile` replaces the object's
parameter maps with the single map parsed from the file, `GetParameterMap(0)`
returns the first held map, and `AddParameterMap` appends.  `readMap`
abstracts parsing one parameter file into its parameter map. -/

/-- The loop state of the chain-building cell: the scratch `param` object's
held maps and the `toplevel_param` object's accumulated chain. -/
structure ParamLoopState (μ : Type) where
  param : List μ
  toplevel : List μ

/-- The chain-building loop of `ApplyTransformToPointSet.ipynb`, over the
stage files in list order. -/
def buildParameterChain {φ μ : Type} (dm : μ) (readMap : φ → μ) (files : List φ) : List μ :=
  (files.foldl
    (fun st fn =>
      let p := [readMap fn]
      { param := p, toplevel := st.toplevel ++ [p.headD dm] })
    (⟨[], []⟩ : ParamLoopState μ)).toplevel

/-- The chain-building loop produces exactly the parameter maps of the files,
in file order. -/
theorem buildParameterChain_eq_map {φ μ : Type} (dm : μ) (readMap : φ → μ) (files : List φ) :
    buildParameterChain dm readMap files = files.map readMap := by
  unfold buildParameterChain
  suffices h : ∀ (acc : List μ) (p0 : List μ),
      (files.foldl
        (fun st fn =>
          let p := [readMap fn]
          { param := p, toplevel := st.toplevel ++ [p.headD dm] })
        (⟨p0, acc⟩ : ParamLoopState μ)).toplevel = acc ++ files.map readMap by
    simpa using h [] []
  induction files with
  | nil => intro acc p0; simp
  | cons fn rest ih =>
    intro acc p0
    have h2 := ih (acc ++ [readMap fn]) [readMap fn]
    simp only [List.foldl_cons]
    simpa using h2

/-- C5: for a list of three stage parameter files, entry `k` of the built
transform-parameter chain is the parameter map read from stage file `k`, for
every `k` in `0..2`: file order is preserved. -/
theorem parameter_chain_preserves_file_order {φ μ : Type} (dm : μ) (df : φ)
    (readMap : φ → μ) (files : List φ) (h3 : files.length = 3) (k : ℕ) (hk : k < 3) :
    (buildParameterChain dm readMap files).getD k dm = readMap (files.getD k df) := by
  rw [buildParameterChain_eq_map]
  exact getD_map_of_lt readMap files k (by omega) dm df

/-- Concrete stage files (numbered 0, 1, 2) for evaluating the chain claim;
the parameter map read from file `n` is abstracted as `n` itself. -/
def exStageFiles : List ℕ := [0, 1, 2]

/-- C5 witness: the chain theorem evaluated at the three concrete stage files
and entry `k = 2`. -/
theorem parameter_chain_preserves_file_order_witness :
    exStageFiles.length = 3 ∧ 2 < 3 ∧
    (buildParameterChain 0 (fun n => n + 10) exStageFiles).getD 2 0 =
      (fun n => n + 10) (exStageFiles.getD 2 0) :=
  ⟨by decide, by decide,
    parameter_chain_preserves_file_order 0 0 (fun n => n + 10) exStageFiles (by decide) 2
      (by decide)⟩

/-!
## The per-accessor store cache (C7)

`LocalFetchFromS3.ipynb` wraps the remote store in
`zarr.LRUStoreCache(store, max_size=2**28)`.  That class (zarr's LRU store
cache, as constructed at that line) keeps one entry per fetched store key,
ordered oldest first, tracks the total byte size of cached values, and on
caching a new value first evicts oldest entries while
`current_size + value_size > max_size`; a value larger than `max_size` is not
cached at all.  Entries are embedded as `(key, byte size)` pairs. -/

/-- The cache state: entries in insertion (least-recently-cached first)
order, each a store key with the byte size of its cached value. -/
structure StoreCache where
  entries : List (String × ℕ)
deriving DecidableEq, Repr

/-- Total byte size of the cached values (`current_size`). -/
def cacheSize (entries : List (String × ℕ)) : ℕ := (entries.map Prod.snd).sum

/-- The eviction loop (`_accommodate_value`): pop the oldest entry while the
new value would push the total size past `max_size`. -/
def evictWhile (maxSize vsize : ℕ) : List (String × ℕ) → List (String × ℕ)
  | [] => []
  | e :: rest =>
    if maxSize < cacheSize (e :: rest) + vsize then evictWhile maxSize vsize rest
    else e :: rest

/-- Caching one fetched value (`_cache_value`): skip values larger than
`max_size`; otherwise evict until the value fits, then append it as the newest
entry. -/
def cacheValue (maxSize : ℕ) (key : String) (vsize : ℕ) (c : StoreCache) : StoreCache :=
  if vsize ≤ maxSize then ⟨evictWhile maxSize vsize c.entries ++ [(key, vsize)]⟩ else c

/-- The keys currently cached. -/
def cachedKeys (c : StoreCache) : List String := c.entries.map Prod.fst

/-- The byte bound the notebook constructs the cache with: `max_size=2**28`. -/
def notebookMaxSize : ℕ := 2 ^ 28

/-- Caching a sequence of fetched values, oldest first. -/
def cacheAll (maxSize : ℕ) (vs : List (String × ℕ)) (c : StoreCache) : StoreCache :=
  vs.foldl (fun acc kv => cacheValue maxSize kv.1 kv.2 acc) c

/-- C7 counterexample: with the notebook's bound `2^28`, caching a
`2^27 + 1`-byte chunk and then a second one evicts the first — an entry once
cached is not retained, so the cache is not append-only. -/
theorem lru_cache_evicts :
    "chunkA" ∈ cachedKeys (cacheValue notebookMaxSize "chunkA" (2 ^ 27 + 1) ⟨[]⟩) ∧
    "chunkA" ∉ cachedKeys
      (cacheValue notebookMaxSize "chunkB" (2 ^ 27 + 1)
        (cacheValue notebookMaxSize "chunkA" (2 ^ 27 + 1) ⟨[]⟩)) := by
  constructor <;> decide

/-- Below the byte bound the eviction loop does nothing. -/
theorem evictWhile_of_fits (maxSize vsize : ℕ) (entries : List (String × ℕ))
    (h : cacheSize entries + vsize ≤ maxSize) :
    evictWhile maxSize vsize entries = entries := by
  cases entries with
  | nil => rfl
  | cons e rest =>
    unfold evictWhile
    rw [if_neg (by omega)]

/-- C7 amended: the cache is append-only exactly while the total byte size of
cached values stays within the constructed bound `2^28`: caching any sequence
of values whose sizes, together with the current contents, total at most
`2^28` appends them in order and evicts nothing. -/
theorem lru_cache_append_only_within_bound (vs : List (String × ℕ)) (c : StoreCache)
    (h : cacheSize c.entries + (vs.map Prod.snd).sum ≤ notebookMaxSize) :
    (cacheAll notebookMaxSize vs c).entries = c.entries ++ vs := by
  induction vs generalizing c with
  | nil => simp [cacheAll]
  | cons kv rest ih =>
    simp only [List.map_cons, List.sum_cons] at h
    have hfit : cacheSize c.entries + kv.2 ≤ notebookMaxSize := by omega
    have hstep : cacheValue notebookMaxSize kv.1 kv.2 c = ⟨c.entries ++ [(kv.1, kv.2)]⟩ := by
      unfold cacheValue
      rw [if_pos (by omega), evictWhile_of_fits _ _ _ hfit]
    show (cacheAll notebookMaxSize rest (cacheValue notebookMaxSize kv.1 kv.2 c)).entries = _
    rw [hstep, ih ⟨c.entries ++ [(kv.1, kv.2)]⟩ (by simp [cacheSize] at h ⊢; omega)]
    simp

/-- C7 amended witness: two small chunks are appended in order with nothing
evicted. -/
theorem lru_cache_append_only_within_bound_witness :
    cacheSize (StoreCache.entries ⟨[]⟩) + ([("a", 5), ("b", 7)].map Prod.snd).sum ≤
        notebookMaxSize ∧
    (cacheAll notebookMaxSize [("a", 5), ("b", 7)] ⟨[]⟩).entries =
      StoreCache.entries ⟨[]⟩ ++ [("a", 5), ("b", 7)] :=
  ⟨by decide, lru_cache_append_only_within_bound [("a", 5), ("b", 7)] ⟨[]⟩ (by decide)⟩

/-!
## The multi-resolution image accessor (C8)

`LocalFetchFromS3.ipynb` fetches exactly one hardcoded pyramid level
(`np.squeeze(np.asarray(root[4]))`) and exposes no level-bounds API, so the
accessor interface is modelled from the spec. -/

/-- The error taxonomy of the spec relevant to level access (spec section 7). -/
inductive AccessError
  | validationError
  | ioError
deriving DecidableEq, Repr

/-- The multi-resolution accessor: the pyramid's per-level dense arrays and
the per-accessor level cache. -/
structure Accessor (α : Type) where
  levels : List α
  cache : List (ℕ × α)

/-- Modelled from the spec: `get_level(i)` of `MultiResolutionImageAccessor`
(spec section 4.2) is not implemented in src — `LocalFetchFromS3.ipynb`
hardcodes `root[4]` — so it is modelled from the spec's contract: return the
dense array for level `i`, fetching only that level and caching it for the
accessor's lifetime; an out-of-range level index raises `ValidationError`
with no state mutation. -/
def get_level {α : Type} (acc : Accessor α) (i : ℕ) :
    Except AccessError α × Accessor α :=
  if h : i < acc.levels.length then
    match acc.cache.lookup i with
    | some a => (Except.ok a, acc)
    | none =>
      let a := acc.levels.get ⟨i, h⟩
      (Except.ok a, { acc with cache := acc.cache ++ [(i, a)] })
  else (Except.error AccessError.validationError, acc)

/-- C8: requesting a level index outside `[0, numLevels)` raises
`ValidationError` and leaves the accessor's level cache exactly as it was —
no state mutation on the failed call. -/
theorem get_level_out_of_range {α : Type} (acc : Accessor α) (i : ℕ)
    (h : ¬ i < acc.levels.length) :
    (get_level acc i).1 = Except.error AccessError.validationError ∧
    (get_level acc i).2.cache = acc.cache := by
  unfold get_level
  rw [dif_neg h]
  exact ⟨rfl, rfl⟩

/-- A concrete five-level accessor (levels hold their own index as data) with
a warm cache, for evaluating the bounds-check claim. -/
def exAccessor : Accessor ℕ := ⟨[10, 11, 12, 13, 14], [(4, 14)]⟩

/-- C8 witness: requesting level 5 of the five-level accessor fails with
`ValidationError` and leaves the cache untouched. -/
theorem get_level_out_of_range_witness :
    ¬ 5 < exAccessor.levels.length ∧
    ((get_level exAccessor 5).1 = Except.error AccessError.validationError ∧
      (get_level exAccessor 5).2.cache = exAccessor.cache) :=
  ⟨by decide, get_level_out_of_range exAccessor 5 (by decide)⟩

/-!
## Anatomical orientation reconciliation (C6)

`LocalFetchFromS3.ipynb` only invokes `itk.OrientImageFilter` for the single
pair RAI → LPS; the general A → B reconciliation is modelled from the spec.
-/

/-- Modelled from the spec: an anatomical orientation code of the closed
enumeration (spec sections 3 and 4.1) — each code maps each array axis to a
signed anatomical direction, with exactly one sign and one anatomical axis per
array dimension and no two axes aliasing the same anatomical direction, i.e. a
permutation of the three axes together with a flip per axis. -/
structure AnatomicalOrientation where
  axisPerm : Equiv.Perm (Fin 3)
  axisFlip : Fin 3 → Bool

/-- The `±1` sign the code assigns to array axis `j`. -/
def AnatomicalOrientation.axisSign (c : AnatomicalOrientation) (j : Fin 3) : ℚ :=
  if c.axisFlip j then -1 else 1

/-- The signed permutation matrix of an orientation code (spec section 4.1:
exactly one `±1` entry per row and column): column `j` is the signed
anatomical basis vector of array axis `j`. -/
def directionMatrix (c : AnatomicalOrientation) : Matrix (Fin 3) (Fin 3) ℚ :=
  Matrix.of fun i j => if c.axisPerm j = i then c.axisSign j else 0

/-- Signed permutation matrices are orthogonal. -/
theorem directionMatrix_mul_transpose (c : AnatomicalOrientation) :
    directionMatrix c * (directionMatrix c).transpose = 1 := by
  ext i j
  rw [Matrix.mul_apply]
  simp only [directionMatrix, Matrix.transpose_apply, Matrix.of_apply]
  rw [Finset.sum_eq_single (c.axisPerm.symm i)]
  · by_cases hij : i = j
    · subst hij
      simp only [Equiv.apply_symm_apply, if_pos rfl, Matrix.one_apply_eq]
      cases hb : c.axisFlip (c.axisPerm.symm i) <;>
        simp [AnatomicalOrientation.axisSign, hb]
    · have hj : ¬ c.axisPerm (c.axisPerm.symm i) = j := by
        rw [Equiv.apply_symm_apply]; exact hij
      simp [hj, hij, Matrix.one_apply]
  · intro b _ hb
    have hbi : ¬ c.axisPerm b = i := fun h => hb (by rw [← h, Equiv.symm_apply_apply])
    simp [hbi]
  · intro h
    exact absurd (Finset.mem_univ _) h

/-- Modelled from the spec: orientation reconciliation from code `src` to
code `tgt` (spec section 4.1) left-multiplies the direction matrix by the
signed permutation mapping the source axis basis onto the target basis,
`M tgt * (M src).transpose`; this is the direction-matrix effect of
`itk.OrientImageFilter` with the given and desired coordinate orientations of
`LocalFetchFromS3.ipynb`. -/
def reconcileDirection (src tgt : AnatomicalOrientation)
    (D : Matrix (Fin 3) (Fin 3) ℚ) : Matrix (Fin 3) (Fin 3) ℚ :=
  directionMatrix tgt * (directionMatrix src).transpose * D

/-- C6: for every pair of anatomical orientation codes `A`, `B` and every
direction matrix, reconciling A → B and then B → A reproduces the original
direction matrix exactly (so in particular within tolerance `1e-9`). -/
theorem orientation_round_trip (A B : AnatomicalOrientation)
    (D : Matrix (Fin 3) (Fin 3) ℚ) :
    reconcileDirection B A (reconcileDirection A B D) = D := by
  unfold reconcileDirection
  have h1 : (directionMatrix B).transpose * directionMatrix B = 1 :=
    Matrix.mul_eq_one_comm.mp (directionMatrix_mul_transpose B)
  have h2 : directionMatrix A * (directionMatrix A).transpose = 1 :=
    directionMatrix_mul_transpose A
  rw [← Matrix.mul_assoc (directionMatrix A * (directionMatrix B).transpose),
    Matrix.mul_assoc (directionMatrix A) (directionMatrix B).transpose,
    ← Matrix.mul_assoc (directionMatrix B).transpose, h1, Matrix.one_mul, h2, Matrix.one_mul]

/-!
## Image mode: metadata-only reconciliation (C10)

The image-mode tail of `LocalFetchFromS3.ipynb`:
`voxel_array = np.squeeze(np.asarray(root[4]))` (the fetched pyramid level's
dense data), `itk_image = itk.image_view_from_array(voxel_array.astype(np.float32))`,
`itk_image.SetSpacing(...)`, the orient filter's `UpdateOutputInformation()`
(which computes output metadata only — no voxel pass), then
`itk_image.CopyInformation(orient_filter.GetOutput())`, and finally
`itk.imwrite(itk_image, ...)`.  Voxel values are `uint16`, exactly
representable in `float32`; `astype(np.float32)` is embedded as the `ℕ → ℚ`
coercion. -/

/-- Index-to-physical geometry metadata of one image: per-axis spacing,
origin, and direction matrix. -/
structure ImageGeometry where
  spacing : Fin 3 → ℚ
  origin : Fin 3 → ℚ
  direction : Matrix (Fin 3) (Fin 3) ℚ

/-- The identity geometry `itk.image_view_from_array` starts from: unit
spacing, zero origin, identity direction. -/
def defaultGeometry : ImageGeometry := ⟨fun _ => 1, fun _ => 0, 1⟩

/-- An ITK image: a dense voxel buffer, its array shape, and its geometry
metadata. -/
structure ITKImage (α : Type) where
  buffer : List α
  size : List ℕ
  geom : ImageGeometry

/-- `itk.image_view_from_array`: wraps the dense array in an image with
default geometry; the buffer is the array's data. -/
def image_view_from_array {α : Type} (buf : List α) (shape : List ℕ) : ITKImage α :=
  ⟨buf, shape, defaultGeometry⟩

/-- `itk_image.SetSpacing(...)`: replaces the spacing metadata. -/
def setSpacing {α : Type} (img : ITKImage α) (s : Fin 3 → ℚ) : ITKImage α :=
  { img with geom := { img.geom with spacing := s } }

/-- The orient filter's output metadata after `UpdateOutputInformation()`:
direction reconciled from the given to the desired orientation, spacing and
origin relabeled along the axis permutation; computed without touching voxel
data. -/
def orientOutputGeometry (given desired : AnatomicalOrientation)
    (g : ImageGeometry) : ImageGeometry :=
  { spacing := fun j => g.spacing (given.axisPerm.symm (desired.axisPerm j))
    origin := fun j => g.origin (given.axisPerm.symm (desired.axisPerm j))
    direction := reconcileDirection given desired g.direction }

/-- `itk_image.CopyInformation(other)`: copies the geometry metadata (spacing,
origin, direction) from the other image; the pixel buffer and buffered region
are untouched. -/
def copyInformation {α : Type} (img : ITKImage α) (src : ImageGeometry) : ITKImage α :=
  { img with geom := src }

/-- The image written out by the image-mode run of `LocalFetchFromS3.ipynb`,
as a function of the fetched pyramid-level voxel data `voxels` (with 3-D shape
`shape`), the configured spacing, and the given/desired orientations. -/
def imageModeResult (voxels : List ℕ) (shape : List ℕ) (spc : Fin 3 → ℚ)
    (given desired : AnatomicalOrientation) : ITKImage ℚ :=
  let img0 := image_view_from_array (voxels.map fun n => (n : ℚ)) shape
  let img1 := setSpacing img0 spc
  copyInformation img1 (orientOutputGeometry given desired img1.geom)

/-- C10: the orientation reconciliation of the image-mode run updates only the
geometry metadata: the written image's voxel buffer holds exactly the fetched
pyramid-level values (each `uint16` value carried exactly into `float32`), its
shape is the fetched shape, and its geometry is the metadata copied from the
orient filter's output information. -/
theorem image_mode_buffer_unchanged (voxels : List ℕ) (shape : List ℕ)
    (spc : Fin 3 → ℚ) (given desired : AnatomicalOrientation) :
    (imageModeResult voxels shape spc given desired).buffer =
      voxels.map (fun n => (n : ℚ)) ∧
    (imageModeResult voxels shape spc given desired).size = shape ∧
    (imageModeResult voxels shape spc given desired).geom =
      orientOutputGeometry given desired
        (setSpacing (image_view_from_array (voxels.map fun n => (n : ℚ)) shape) spc).geom :=
  ⟨rfl, rfl, rfl⟩

end BrainTogether
